/-
Verification of the Chipster8 CHIP-8 core.

Shallow embedding of the CHIP-8 virtual CPU:
  * src/display/mod.rs  — the 64×32 one-bit framebuffer and its XOR sprite blit,
  * src/state/mod.rs    — the machine state (registers, stack, timers, RAM, keypad),
  * src/instruction/mod.rs — the opcode decoder and the per-instruction effects.

Modelling conventions:
  * u8 / u16 machine integers are Nat with explicit `% 256` / `% 65536` at the
    points where the Rust arithmetic wraps (release-profile semantics);
  * fallible operations (array indexing that can go out of bounds, stack
    push/pop past the ends) return Option, `none` standing for a Rust panic;
  * the register file, call stack and keypad are total functions Nat → _,
    with an explicit bounds guard wherever the Rust index is not statically
    below the array length (keypad[v[x]], stack[sp], every RAM access);
  * the framebuffer is a List (List Nat) of shape 32 × 64 as in the source
    (`data: [[u8; 64]; 32]`), pixels 0/1.
-/
import Mathlib

/-! ## Framebuffer — src/display/mod.rs -/

/-- Column index used for sprite bit `i`: the Rust source computes
`((x + i) % 64) as usize` on u8 operands, so the u8 addition wraps mod 256
before the `% 64`. -/
def colIndex (x i : Nat) : Nat := ((x + i) % 256) % 64

/-- Row index used for sprite row `row`: `((y + row as u8) % 32) as usize`
on u8 operands. -/
def rowIndex (y row : Nat) : Nat := ((y + row % 256) % 256) % 32

/-- XOR the value `bit` onto pixel `(r, c)` of the framebuffer
(`self.data[y][x] ^= …`). -/
def xorPix (d : List (List Nat)) (r c bit : Nat) : List (List Nat) :=
  d.set r ((d.getD r []).set c (((d.getD r []).getD c 0) ^^^ bit))

/-- One iteration of the inner bit loop of `display_sprite`: composite
sprite bit `i` (counted from the most significant bit) of sprite row `byte`
onto the framebuffer.  Mirrors
`self.data[y][x] ^= if (0b10000000 >> i & byte) > 0 { 1 } else { collision = true; 0 };`
— note the `else` arm sets the collision flag whenever the sprite bit is 0. -/
def spriteBitStep (x y2 byte : Nat) (acc : List (List Nat) × Bool) (i : Nat) :
    List (List Nat) × Bool :=
  let x2 := colIndex x i
  if (0x80 >>> i) &&& byte > 0 then
    (xorPix acc.1 y2 x2 1, acc.2)
  else
    (xorPix acc.1 y2 x2 0, true)

/-- One sprite row of `display_sprite`: the Rust inner loop is `for i in 0..7`,
i.e. bit indices 0 through 6 only. -/
def spriteRowStep (x y : Nat) (acc : List (List Nat) × Bool) (rb : Nat × Nat) :
    List (List Nat) × Bool :=
  let y2 := rowIndex y rb.1
  (List.range 7).foldl (spriteBitStep x y2 rb.2) acc

/-- `Display::display_sprite(x, y, sprite)` from src/display/mod.rs: XOR-blit
the sprite onto the framebuffer, returning the new framebuffer and the
collision flag. -/
def display_sprite (d : List (List Nat)) (x y : Nat) (sprite : List Nat) :
    List (List Nat) × Bool :=
  sprite.enum.foldl (spriteRowStep x y) (d, false)

/-- The all-zero 64×32 framebuffer (`Display::new`, and the result of
`Display::reset`). -/
def clearDisplay : List (List Nat) := List.replicate 32 (List.replicate 64 0)

/-- `Display::is_clear`: every pixel is 0. -/
def is_clear (d : List (List Nat)) : Bool :=
  d.all (fun row => row.all (fun p => p == 0))

/-! ## Machine state — src/state/mod.rs -/

/-- The machine state.  Field names and order follow `struct State`.
`ram` is a list because its length is part of the source's behavior
(`ram: [u8; 4095]`). -/
structure State where
  i : Nat
  pc : Nat
  sp : Nat
  dt : Nat
  st : Nat
  v : Nat → Nat
  stack : Nat → Nat
  keypad : Nat → Bool
  display : List (List Nat)
  ram : List Nat

/-- The 80-byte font table copied into `ram[0..80]` by `State::fill_ram`. -/
def character_data : List Nat :=
  [0xF0, 0x90, 0x90, 0x90, 0xF0,
   0x20, 0x60, 0x20, 0x20, 0x70,
   0xF0, 0x10, 0xF0, 0x80, 0xF0,
   0xF0, 0x10, 0xF0, 0x10, 0xF0,
   0x90, 0x90, 0xF0, 0x10, 0x10,
   0xF0, 0x80, 0xF0, 0x10, 0xF0,
   0xF0, 0x80, 0xF0, 0x90, 0xF0,
   0xF0, 0x10, 0x20, 0x40, 0x40,
   0xF0, 0x90, 0xF0, 0x90, 0xF0,
   0xF0, 0x90, 0xF0, 0x10, 0xF0,
   0xF0, 0x90, 0xF0, 0x90, 0x90,
   0xE0, 0x90, 0xE0, 0x90, 0xE0,
   0xF0, 0x80, 0x80, 0x80, 0xF0,
   0xE0, 0x90, 0x90, 0x90, 0xE0,
   0xF0, 0x80, 0xF0, 0x80, 0xF0,
   0xF0, 0x80, 0xF0, 0x80, 0x80]

/-- `State::new`: zeroed registers, `pc = 0x200`, and RAM of `0xFFF = 4095`
bytes (`ram: [0; 0xFFF]`) whose first 80 bytes hold the font table. -/
def State.new : State :=
  { i := 0
    pc := 0x200
    sp := 0
    dt := 0
    st := 0
    v := fun _ => 0
    stack := fun _ => 0
    keypad := fun _ => false
    display := clearDisplay
    ram := character_data ++ List.replicate (0xFFF - 80) 0 }

/-- `State::push`: `stack[sp] = value; sp += 1`.  The write to `stack[sp]`
is out of bounds (a panic) unless `sp < 16`. -/
def State.push (s : State) (value : Nat) : Option State :=
  if s.sp < 16 then
    some { s with stack := Function.update s.stack s.sp value, sp := s.sp + 1 }
  else none

/-- `State::pop`: `sp -= 1; stack[sp]`.  The decrement underflows when
`sp = 0` and the read is out of bounds unless `sp - 1 < 16`. -/
def State.pop (s : State) : Option (Nat × State) :=
  if 1 ≤ s.sp ∧ s.sp - 1 < 16 then
    some (s.stack (s.sp - 1), { s with sp := s.sp - 1 })
  else none

/-! ## Opcode field extractors — src/instruction/mod.rs -/

def get_x (opcode : Nat) : Nat := (opcode &&& 0x0F00) >>> 8

def get_y (opcode : Nat) : Nat := (opcode &&& 0x00F0) >>> 4

def get_nnn (opcode : Nat) : Nat := opcode &&& 0x0FFF

def get_addr (opcode : Nat) : Nat := opcode &&& 0x0FFF

def get_nibble (opcode : Nat) : Nat := opcode &&& 0x000F

def get_byte (opcode : Nat) : Nat := opcode &&& 0x00FF

/-! ## Per-instruction effects — the closures built by `Instruction::new`

Each step function takes the opcode, the random byte `r` drawn by the RND
instruction (the model of `rand::thread_rng().gen_range(0, 256)`; every other
instruction ignores it) and the state, returning `none` exactly when the Rust
closure would panic on an out-of-bounds array access. -/

/-- 00E0 CLS: `state.display.reset();` — the pc is NOT advanced. -/
def stepCLS (_op _r : Nat) (s : State) : Option State :=
  some { s with display := clearDisplay }

/-- 00EE RET: `state.pc = state.pop(); state.pc += 2;`. -/
def stepRET (_op _r : Nat) (s : State) : Option State :=
  (s.pop).map (fun p => { p.2 with pc := (p.1 + 2) % 65536 })

/-- 0nnn SYS addr: `state.pc = get_addr(opcode);`. -/
def stepSYS (op _r : Nat) (s : State) : Option State :=
  some { s with pc := get_addr op }

/-- 1nnn JMP addr. -/
def stepJMP (op _r : Nat) (s : State) : Option State :=
  some { s with pc := get_nnn op }

/-- 2nnn CALL addr: `state.push(state.pc); state.pc = get_addr(opcode);`. -/
def stepCALL (op _r : Nat) (s : State) : Option State :=
  (s.push s.pc).map (fun s1 => { s1 with pc := get_addr op })

/-- 3xkk SE Vx, byte: conditional extra `pc += 2`, then unconditional `pc += 2`. -/
def stepSEByte (op _r : Nat) (s : State) : Option State :=
  let s1 := if s.v (get_x op) = get_byte op then { s with pc := (s.pc + 2) % 65536 } else s
  some { s1 with pc := (s1.pc + 2) % 65536 }

/-- 4xkk SNE Vx, byte. -/
def stepSNEByte (op _r : Nat) (s : State) : Option State :=
  let s1 := if s.v (get_x op) ≠ get_byte op then { s with pc := (s.pc + 2) % 65536 } else s
  some { s1 with pc := (s1.pc + 2) % 65536 }

/-- 5xkk SE Vx, Vy (the source matches every opcode with top nibble 5). -/
def stepSEReg (op _r : Nat) (s : State) : Option State :=
  let s1 := if s.v (get_x op) = s.v (get_y op) then { s with pc := (s.pc + 2) % 65536 } else s
  some { s1 with pc := (s1.pc + 2) % 65536 }

/-- 6xkk LD Vx, byte. -/
def stepLDByte (op _r : Nat) (s : State) : Option State :=
  some { s with v := Function.update s.v (get_x op) (get_byte op), pc := (s.pc + 2) % 65536 }

/-- 7xkk ADD Vx, byte: `(state.v[x] as u16 + byte as u16) as u8`. -/
def stepADDByte (op _r : Nat) (s : State) : Option State :=
  some { s with v := Function.update s.v (get_x op) ((s.v (get_x op) + get_byte op) % 256),
                pc := (s.pc + 2) % 65536 }

/-- 8xy0 LD Vx, Vy. -/
def stepLDReg (op _r : Nat) (s : State) : Option State :=
  some { s with v := Function.update s.v (get_x op) (s.v (get_y op)), pc := (s.pc + 2) % 65536 }

/-- 8xy1 OR Vx, Vy. -/
def stepOR (op _r : Nat) (s : State) : Option State :=
  some { s with v := Function.update s.v (get_x op) (s.v (get_x op) ||| s.v (get_y op)),
                pc := (s.pc + 2) % 65536 }

/-- 8xy2 AND Vx, Vy. -/
def stepAND (op _r : Nat) (s : State) : Option State :=
  some { s with v := Function.update s.v (get_x op) (s.v (get_x op) &&& s.v (get_y op)),
                pc := (s.pc + 2) % 65536 }

/-- 8xy3 XOR Vx, Vy. -/
def stepXOR (op _r : Nat) (s : State) : Option State :=
  some { s with v := Function.update s.v (get_x op) (s.v (get_x op) ^^^ s.v (get_y op)),
                pc := (s.pc + 2) % 65536 }

/-- 8xy4 ADD Vx, Vy: `result` is the 9-bit sum; `v[15]` is set from
`result > 255` before `v[x] = (result % 0xFF) as u8` — note the source's
modulo 0xFF = 255, not 256. -/
def stepADDReg (op _r : Nat) (s : State) : Option State :=
  let x := get_x op
  let result := s.v x + s.v (get_y op)
  let v1 := Function.update s.v 15 (if 255 < result then 1 else 0)
  some { s with v := Function.update v1 x (result % 0xFF), pc := (s.pc + 2) % 65536 }

/-- 8xy5 SUB Vx, Vy: flag from the pre-write compare, then the i8 wrapping
difference `(v[x] as i8 - v[y] as i8) as u8`. -/
def stepSUB (op _r : Nat) (s : State) : Option State :=
  let x := get_x op
  let y := get_y op
  let v1 := Function.update s.v 15 (if s.v y < s.v x then 1 else 0)
  some { s with v := Function.update v1 x ((v1 x % 256 + 256 - v1 y % 256) % 256),
                pc := (s.pc + 2) % 65536 }

/-- 8xy6 SHR Vx: `v[15] = v[x] & 1;` then `v[x] >>= 1` (reads after the flag
write, which matters when x = 15). -/
def stepSHR (op _r : Nat) (s : State) : Option State :=
  let x := get_x op
  let v1 := Function.update s.v 15 (s.v x &&& 0x01)
  some { s with v := Function.update v1 x (v1 x >>> 1), pc := (s.pc + 2) % 65536 }

/-- 8xy7 SUBN Vx, Vy. -/
def stepSUBN (op _r : Nat) (s : State) : Option State :=
  let x := get_x op
  let y := get_y op
  let v1 := Function.update s.v 15 (if s.v x < s.v y then 1 else 0)
  some { s with v := Function.update v1 x ((v1 y % 256 + 256 - v1 x % 256) % 256),
                pc := (s.pc + 2) % 65536 }

/-- 8xyE SHL Vx: `v[15] = (v[x] & 0x80) >> 7;` then `v[x] <<= 1` (u8, high
bit discarded). -/
def stepSHL (op _r : Nat) (s : State) : Option State :=
  let x := get_x op
  let v1 := Function.update s.v 15 ((s.v x &&& 0x80) >>> 7)
  some { s with v := Function.update v1 x ((v1 x * 2) % 256), pc := (s.pc + 2) % 65536 }

/-- 9xy0 SNE Vx, Vy: the source has only the conditional `pc += 2`, with no
unconditional advance. -/
def stepSNEReg (op _r : Nat) (s : State) : Option State :=
  if s.v (get_x op) ≠ s.v (get_y op) then some { s with pc := (s.pc + 2) % 65536 }
  else some s

/-- Annn LD I, addr. -/
def stepLDI (op _r : Nat) (s : State) : Option State :=
  some { s with i := get_addr op, pc := (s.pc + 2) % 65536 }

/-- Bnnn JP V0, addr: `state.pc = state.v[0] as u16 + addr` (cannot overflow:
u8 + 12-bit value). -/
def stepJPV0 (op _r : Nat) (s : State) : Option State :=
  some { s with pc := s.v 0 + get_addr op }

/-- Cxkk RND Vx, byte: the random byte masked with the operand. -/
def stepRND (op r : Nat) (s : State) : Option State :=
  some { s with v := Function.update s.v (get_x op) ((r % 256) &&& get_byte op),
                pc := (s.pc + 2) % 65536 }

/-- Dxyn DRW Vx, Vy, nibble: slice `ram[i..i + nibble]` (a panic when the
upper bound, computed in u16, is below `i` or beyond the RAM length),
blit it, and store the collision flag in `v[15]`. -/
def stepDRW (op _r : Nat) (s : State) : Option State :=
  let n := get_nibble op
  let b := (s.i + n) % 65536
  if s.i ≤ b ∧ b ≤ s.ram.length then
    let sprite := (s.ram.drop s.i).take (b - s.i)
    let res := display_sprite s.display (s.v (get_x op)) (s.v (get_y op)) sprite
    some { s with display := res.1,
                  v := Function.update s.v 15 (if res.2 then 1 else 0),
                  pc := (s.pc + 2) % 65536 }
  else none

/-- Ex9E SKP Vx: `state.keypad[state.v[x] as usize]` is out of bounds when
`v[x] ≥ 16`; only the conditional `pc += 2`, no unconditional advance. -/
def stepSKP (op _r : Nat) (s : State) : Option State :=
  if s.v (get_x op) < 16 then
    if s.keypad (s.v (get_x op)) then some { s with pc := (s.pc + 2) % 65536 } else some s
  else none

/-- ExA1 SKNP Vx. -/
def stepSKNP (op _r : Nat) (s : State) : Option State :=
  if s.v (get_x op) < 16 then
    if s.keypad (s.v (get_x op)) then some s else some { s with pc := (s.pc + 2) % 65536 }
  else none

/-- Fx07 LD Vx, DT. -/
def stepLDVxDT (op _r : Nat) (s : State) : Option State :=
  some { s with v := Function.update s.v (get_x op) s.dt, pc := (s.pc + 2) % 65536 }

/-- The scan loop of Fx0A over the 16 keypad entries: for every pressed key
`i` the source does `state.v[x] = i as u8; state.pc += 2;` — the pc advance
happens once PER pressed key. -/
def ldkLoop (kp : Nat → Bool) (x : Nat) : List Nat → (Nat → Nat) × Nat → (Nat → Nat) × Nat
  | [], acc => acc
  | i :: rest, acc =>
      ldkLoop kp x rest
        (if kp i then (Function.update acc.1 x i, (acc.2 + 2) % 65536) else acc)

/-- Fx0A LD Vx, K: one scan of the keypad per execution. -/
def stepLDK (op _r : Nat) (s : State) : Option State :=
  let res := ldkLoop s.keypad (get_x op) (List.range 16) (s.v, s.pc)
  some { s with v := res.1, pc := res.2 }

/-- Fx15 LD DT, Vx. -/
def stepLDDT (op _r : Nat) (s : State) : Option State :=
  some { s with dt := s.v (get_x op), pc := (s.pc + 2) % 65536 }

/-- Fx18 LD ST, Vx. -/
def stepLDST (op _r : Nat) (s : State) : Option State :=
  some { s with st := s.v (get_x op), pc := (s.pc + 2) % 65536 }

/-- Fx1E ADD I, Vx: u16 wrapping add, no masking to 12 bits. -/
def stepADDI (op _r : Nat) (s : State) : Option State :=
  some { s with i := (s.i + s.v (get_x op)) % 65536, pc := (s.pc + 2) % 65536 }

/-- Fx29 LD F, Vx: `state.i = (state.v[x] * 5) as u16` — the multiply is done
in u8, so it wraps modulo 256 before the widening cast. -/
def stepLDF (op _r : Nat) (s : State) : Option State :=
  some { s with i := (s.v (get_x op) * 5) % 256, pc := (s.pc + 2) % 65536 }

/-- Write one RAM byte, `none` when the index is out of bounds. -/
def setRam (ram : List Nat) (a val : Nat) : Option (List Nat) :=
  if a < ram.length then some (ram.set a val) else none

/-- Fx33 LD B, Vx: BCD digits written at `i + 2`, `i + 1`, `i` in that order
(the loop runs `(0..3).rev()`), each index computed in u16. -/
def stepLDB (op _r : Nat) (s : State) : Option State :=
  let d := s.v (get_x op)
  (setRam s.ram ((s.i + 2) % 65536) (d % 10)).bind (fun m1 =>
    (setRam m1 ((s.i + 1) % 65536) (d / 10 % 10)).bind (fun m2 =>
      (setRam m2 (s.i % 65536) (d / 10 / 10 % 10)).map (fun m3 =>
        { s with ram := m3, pc := (s.pc + 2) % 65536 })))

/-- The write loop of Fx55: `ram[i + k] = v[k]` for `k = 0..=x`. -/
def storeRegsLoop (v : Nat → Nat) (i0 : Nat) : List Nat → List Nat → Option (List Nat)
  | [], ram => some ram
  | k :: rest, ram => (setRam ram ((i0 + k) % 65536) (v k)).bind (storeRegsLoop v i0 rest)

/-- Fx55 LD [I], Vx. -/
def stepSTR (op _r : Nat) (s : State) : Option State :=
  (storeRegsLoop s.v s.i (List.range (get_x op + 1)) s.ram).map (fun m =>
    { s with ram := m, pc := (s.pc + 2) % 65536 })

/-- The read loop of Fx65: `v[k] = ram[i + k]` for `k = 0..=x`. -/
def loadRegsLoop (i0 : Nat) (ram : List Nat) : List Nat → (Nat → Nat) → Option (Nat → Nat)
  | [], v => some v
  | k :: rest, v =>
      (ram.get? ((i0 + k) % 65536)).bind (fun b =>
        loadRegsLoop i0 ram rest (Function.update v k b))

/-- Fx65 LD Vx, [I]. -/
def stepLDR (op _r : Nat) (s : State) : Option State :=
  (loadRegsLoop s.i s.ram (List.range (get_x op + 1)) s.v).map (fun v2 =>
    { s with v := v2, pc := (s.pc + 2) % 65536 })

/-! ## Decoder — the `match` of `Instruction::new` -/

/-- The decoder: the nested match of `Instruction::new` on
`opcode & 0xF000` / `opcode & 0xF00F` / `opcode & 0xF0FF`.  Returns the
instruction's effect, or `none` for the fallback "Unknown instruction" arms. -/
def decodeStep (op : Nat) : Option (Nat → State → Option State) :=
  if op &&& 0xF000 = 0x0000 then
    if op = 0x00E0 then some (stepCLS op)
    else if op = 0x00EE then some (stepRET op)
    else some (stepSYS op)
  else if op &&& 0xF000 = 0x1000 then some (stepJMP op)
  else if op &&& 0xF000 = 0x2000 then some (stepCALL op)
  else if op &&& 0xF000 = 0x3000 then some (stepSEByte op)
  else if op &&& 0xF000 = 0x4000 then some (stepSNEByte op)
  else if op &&& 0xF000 = 0x5000 then some (stepSEReg op)
  else if op &&& 0xF000 = 0x6000 then some (stepLDByte op)
  else if op &&& 0xF000 = 0x7000 then some (stepADDByte op)
  else if op &&& 0xF000 = 0x8000 then
    if op &&& 0xF00F = 0x8000 then some (stepLDReg op)
    else if op &&& 0xF00F = 0x8001 then some (stepOR op)
    else if op &&& 0xF00F = 0x8002 then some (stepAND op)
    else if op &&& 0xF00F = 0x8003 then some (stepXOR op)
    else if op &&& 0xF00F = 0x8004 then some (stepADDReg op)
    else if op &&& 0xF00F = 0x8005 then some (stepSUB op)
    else if op &&& 0xF00F = 0x8006 then some (stepSHR op)
    else if op &&& 0xF00F = 0x8007 then some (stepSUBN op)
    else if op &&& 0xF00F = 0x800E then some (stepSHL op)
    else none
  else if op &&& 0xF000 = 0x9000 then some (stepSNEReg op)
  else if op &&& 0xF000 = 0xA000 then some (stepLDI op)
  else if op &&& 0xF000 = 0xB000 then some (stepJPV0 op)
  else if op &&& 0xF000 = 0xC000 then some (stepRND op)
  else if op &&& 0xF000 = 0xD000 then some (stepDRW op)
  else if op &&& 0xF000 = 0xE000 then
    if op &&& 0xF0FF = 0xE09E then some (stepSKP op)
    else if op &&& 0xF0FF = 0xE0A1 then some (stepSKNP op)
    else none
  else if op &&& 0xF000 = 0xF000 then
    if op &&& 0xF0FF = 0xF007 then some (stepLDVxDT op)
    else if op &&& 0xF0FF = 0xF00A then some (stepLDK op)
    else if op &&& 0xF0FF = 0xF015 then some (stepLDDT op)
    else if op &&& 0xF0FF = 0xF018 then some (stepLDST op)
    else if op &&& 0xF0FF = 0xF01E then some (stepADDI op)
    else if op &&& 0xF0FF = 0xF029 then some (stepLDF op)
    else if op &&& 0xF0FF = 0xF033 then some (stepLDB op)
    else if op &&& 0xF0FF = 0xF055 then some (stepSTR op)
    else if op &&& 0xF0FF = 0xF065 then some (stepLDR op)
    else none
  else none

/-- Whether the opcode matches a known instruction pattern (i.e. does not
fall through to an "Unknown instruction" arm). -/
def isKnown (op : Nat) : Bool := (decodeStep op).isSome

/-- Executing the decoded Operation: a known instruction runs its effect and
reports `true` (or panics, modelled `none`); an unknown opcode prints a
diagnostic, leaves the state untouched and reports `false`. -/
def executeStep (r op : Nat) (s : State) : Option (State × Bool) :=
  match decodeStep op with
  | some f => (f r s).map (fun t => (t, true))
  | none => some (s, false)

/-! ## Concrete example states used as test inputs -/

/-- A fresh machine with keys 0 and 1 pressed. -/
def twoKeysState : State := { State.new with keypad := fun n => decide (n < 2) }

/-- A fresh machine with `V1 = 52` (the smallest value for which `V1 * 5`
overflows u8). -/
def reg52State : State := { State.new with v := Function.update State.new.v 1 52 }

/-- A fresh machine with `V1 = 0xFF` and `V2 = 0xF0` (the ADD overflow test
vector from the spec). -/
def addDemoState : State :=
  { State.new with v := Function.update (Function.update State.new.v 1 0xFF) 2 0xF0 }

/-! ## General lemmas -/

theorem getLast_some_mem {l : List Nat} {a : Nat} (h : l.getLast? = some a) : a ∈ l := by
  obtain ⟨hne, heq⟩ := List.mem_getLast?_eq_getLast (show a ∈ l.getLast? from h)
  rw [heq]
  exact List.getLast_mem hne

theorem getLast_filter_le_max (p : Nat → Bool) :
    ∀ (l : List Nat), l.Pairwise (· ≤ ·) → ∀ j, (l.filter p).getLast? = some j →
      p j = true ∧ ∀ m ∈ l, p m = true → m ≤ j := by
  intro l
  induction l with
  | nil => intro _ j hj; simp at hj
  | cons i rest ih =>
    intro hp j hl
    rw [List.pairwise_cons] at hp
    cases hpi : p i with
    | false =>
      rw [List.filter_cons_of_neg (by simp [hpi])] at hl
      obtain ⟨hpj, hmax⟩ := ih hp.2 j hl
      refine ⟨hpj, ?_⟩
      intro m hm hpm
      rcases List.mem_cons.1 hm with rfl | hm2
      · rw [hpi] at hpm; exact absurd hpm (by simp)
      · exact hmax m hm2 hpm
    | true =>
      rw [List.filter_cons_of_pos hpi] at hl
      cases hrf : rest.filter p with
      | nil =>
        rw [hrf] at hl
        have hji : j = i := by simpa using hl.symm
        subst hji
        refine ⟨hpi, ?_⟩
        intro m hm hpm
        rcases List.mem_cons.1 hm with rfl | hm2
        · exact Nat.le_refl _
        · exact absurd (List.mem_filter.2 ⟨hm2, hpm⟩) (by rw [hrf]; simp)
      | cons a t =>
        rw [hrf, List.getLast?_cons_cons, ← hrf] at hl
        obtain ⟨hpj, hmax⟩ := ih hp.2 j hl
        refine ⟨hpj, ?_⟩
        intro m hm hpm
        rcases List.mem_cons.1 hm with rfl | hm2
        · exact hp.1 j (List.mem_filter.1 (getLast_some_mem hl)).1
        · exact hmax m hm2 hpm

theorem ldkLoop_eq (kp : Nat → Bool) (x : Nat) :
    ∀ (l : List Nat) (v : Nat → Nat) (pc : Nat),
      (l.filter kp = [] → ldkLoop kp x l (v, pc) = (v, pc)) ∧
      (∀ j, (l.filter kp).getLast? = some j →
        ldkLoop kp x l (v, pc) =
          (Function.update v x j, (pc + 2 * l.countP kp) % 65536)) := by
  intro l
  induction l with
  | nil =>
    intro v pc
    exact ⟨fun _ => rfl, fun j hj => by simp at hj⟩
  | cons i rest ih =>
    intro v pc
    cases hki : kp i with
    | false =>
      have hstep : ldkLoop kp x (i :: rest) (v, pc) = ldkLoop kp x rest (v, pc) := by
        simp [ldkLoop, hki]
      rw [List.filter_cons_of_neg (by simp [hki])]
      constructor
      · intro h
        rw [hstep]
        exact (ih v pc).1 h
      · intro j hj
        rw [hstep, (ih v pc).2 j hj, List.countP_cons_of_neg _ _ (by simp [hki])]
    | true =>
      have hstep : ldkLoop kp x (i :: rest) (v, pc) =
          ldkLoop kp x rest (Function.update v x i, (pc + 2) % 65536) := by
        simp [ldkLoop, hki]
      rw [List.filter_cons_of_pos hki]
      constructor
      · intro h
        exact absurd h (by simp)
      · intro j hj
        cases hrf : rest.filter kp with
        | nil =>
          rw [hrf] at hj
          have hji : j = i := by simpa using hj.symm
          subst hji
          have hc0 : rest.countP kp = 0 := by
            rw [List.countP_eq_length_filter, hrf]
            rfl
          rw [hstep, (ih _ _).1 hrf, List.countP_cons_of_pos _ _ hki, hc0]
        | cons a t =>
          rw [hrf, List.getLast?_cons_cons, ← hrf] at hj
          rw [hstep, (ih _ _).2 j hj, Function.update_idem,
            List.countP_cons_of_pos _ _ hki]
          refine congrArg (Prod.mk _) ?_
          omega

/-! ## Claim theorems -/

/-- C9: for all inputs to `display_sprite`, the column index used is in
0..64 and the row index used is in 0..32 — the wraparound holds for any
input (in particular for every u8 value, even when the offset additions
wrap). -/
theorem display_indices_in_bounds (x i y row : Nat) :
    colIndex x i < 64 ∧ rowIndex y row < 32 :=
  ⟨Nat.mod_lt _ (by norm_num), Nat.mod_lt _ (by norm_num)⟩

/-- C5 (code bug): the constructed state's RAM holds 4095 bytes, not 4096 —
`ram: [u8; 4095]` / `ram: [0; 0xFFF]` is an off-by-one — so address 4095
(0xFFF) is NOT a valid RAM index, contrary to the claim. -/
theorem ram_size_mismatch :
    State.new.ram.length = 4095 ∧ State.new.ram.length ≠ 4096 ∧
      State.new.ram.get? 4095 = none := by
  have hlen : State.new.ram.length = 4095 := by
    show (character_data ++ List.replicate (0xFFF - 80) 0).length = 4095
    rw [List.length_append, List.length_replicate]
    rfl
  refine ⟨hlen, by rw [hlen]; norm_num, ?_⟩
  rw [List.get?_eq_none]
  rw [hlen]

/-- C2 (code bug): `display_sprite` reports a collision on a completely
clear framebuffer — with sprite byte 0x00 at (0, 0), no pixel is cleared
(the framebuffer is unchanged and still clear), yet the function returns
`true`, because the source sets the collision flag whenever a sprite bit is
0, regardless of the previous pixel state. -/
theorem collision_without_pixel_clear :
    (display_sprite clearDisplay 0 0 [0x00]).2 = true ∧
    (display_sprite clearDisplay 0 0 [0x00]).1 = clearDisplay := by
  constructor
  · rfl
  · rfl

/-- C3 (code bug): the inner loop `for i in 0..7` never composites bit 7
(the least significant bit) of a sprite byte: drawing the byte 0x01 at
(0, 0) leaves the framebuffer completely clear, and in particular the pixel
at row 0, column 7 — where the claim says the LSB must land — stays 0. -/
theorem lsb_never_drawn :
    is_clear (display_sprite clearDisplay 0 0 [0x01]).1 = true ∧
    ((display_sprite clearDisplay 0 0 [0x01]).1.getD 0 []).getD 7 0 = 0 := by
  constructor
  · rfl
  · rfl

/-- C10: from any state with `sp ≤ 15`, `pop` right after `push w` returns
`w`, restores `sp`, and leaves every other state component (v, pc, i, dt,
st, ram, keypad, display) unchanged. -/
theorem push_pop_roundtrip (s : State) (w : Nat) (h : s.sp ≤ 15) :
    ∃ s2, (s.push w).bind State.pop = some (w, s2) ∧
      s2.sp = s.sp ∧ s2.v = s.v ∧ s2.pc = s.pc ∧ s2.i = s.i ∧ s2.dt = s.dt ∧
      s2.st = s.st ∧ s2.ram = s.ram ∧ s2.keypad = s.keypad ∧
      s2.display = s.display := by
  refine ⟨{ s with stack := Function.update s.stack s.sp w }, ?_, rfl, rfl,
    rfl, rfl, rfl, rfl, rfl, rfl, rfl⟩
  have hlt : s.sp < 16 := by omega
  rw [State.push, if_pos hlt]
  show State.pop { s with stack := Function.update s.stack s.sp w, sp := s.sp + 1 } = _
  rw [State.pop, if_pos (show 1 ≤ s.sp + 1 ∧ s.sp + 1 - 1 < 16 from ⟨by omega, by omega⟩)]
  simp [Function.update_same]

/-- C10 witness: on the fresh state, pushing 0xABC and popping returns
0xABC with `sp` back to 0. -/
theorem push_pop_roundtrip_witness :
    ∃ s2, (State.new.push 0xABC).bind State.pop = some (0xABC, s2) ∧
      s2.sp = State.new.sp ∧ s2.v = State.new.v ∧ s2.pc = State.new.pc ∧
      s2.i = State.new.i ∧ s2.dt = State.new.dt ∧ s2.st = State.new.st ∧
      s2.ram = State.new.ram ∧ s2.keypad = State.new.keypad ∧
      s2.display = State.new.display :=
  push_pop_roundtrip State.new 0xABC (by decide)

/-- C8: executing the decoded Operation reports `false` exactly for the
opcodes that match no known instruction pattern, and in that case the whole
machine state is returned unchanged. -/
theorem unknown_opcode_semantics (r op : Nat) (s : State) :
    (isKnown op = false → executeStep r op s = some (s, false)) ∧
    (∀ s1 b, executeStep r op s = some (s1, b) → b = false →
      isKnown op = false ∧ s1 = s) := by
  unfold executeStep isKnown
  cases hd : decodeStep op with
  | none =>
    refine ⟨fun _ => rfl, fun s1 b hb _ => ⟨rfl, ?_⟩⟩
    simp only [Option.some.injEq, Prod.mk.injEq] at hb
    exact hb.1.symm
  | some f =>
    constructor
    · intro hk
      simp at hk
    · intro s1 b hb hbf
      have hb2 : Option.map (fun t => (t, true)) (f r s) = some (s1, b) := hb
      cases hfs : f r s with
      | none => rw [hfs] at hb2; simp at hb2
      | some t =>
        rw [hfs] at hb2
        simp only [Option.map_some', Option.some.injEq, Prod.mk.injEq] at hb2
        exact absurd (hb2.2.trans hbf) (by decide)

/-- C8 witness: 0x8008 matches no pattern (the 0x8 family has no low-nibble
8 arm); executing it on the fresh state leaves the state unchanged and
reports `false`. -/
theorem unknown_opcode_semantics_witness :
    executeStep 0 0x8008 State.new = some (State.new, false) :=
  (unknown_opcode_semantics 0 0x8008 State.new).1 (by decide)

/-- C6: for any state and any 8xy4 opcode with x ≠ 0xF, ADD Vx, Vy sets VF
to 1 exactly when the 9-bit sum exceeds 255 (0 otherwise), stores
`(Vx + Vy) mod 255` into Vx (the source's `result % 0xFF`), and advances
pc by 2. -/
theorem add_reg_semantics (r op : Nat) (s : State)
    (h1 : op &&& 0xF000 = 0x8000) (h2 : op &&& 0xF00F = 0x8004)
    (hx : get_x op ≠ 15) :
    ∃ s1, executeStep r op s = some (s1, true) ∧
      s1.v 15 = (if 255 < s.v (get_x op) + s.v (get_y op) then 1 else 0) ∧
      s1.v (get_x op) = (s.v (get_x op) + s.v (get_y op)) % 255 ∧
      s1.pc = (s.pc + 2) % 65536 := by
  refine ⟨{ s with
      v := Function.update
        (Function.update s.v 15 (if 255 < s.v (get_x op) + s.v (get_y op) then 1 else 0))
        (get_x op) ((s.v (get_x op) + s.v (get_y op)) % 255),
      pc := (s.pc + 2) % 65536 }, ?_, ?_, ?_, rfl⟩
  · simp [executeStep, decodeStep, h1, h2, stepADDReg]
  · dsimp only
    rw [Function.update_noteq (Ne.symm hx), Function.update_same]
  · dsimp only
    rw [Function.update_same]

/-- C6 witness: with V1 = 0xFF and V2 = 0xF0, executing 0x8124 sets VF = 1,
V1 = (0xFF + 0xF0) mod 255 = 240, and pc = 0x202. -/
theorem add_reg_semantics_witness :
    ∃ s1, executeStep 0 0x8124 addDemoState = some (s1, true) ∧
      s1.v 15 = 1 ∧ s1.v 1 = 240 ∧ s1.pc = 0x202 := by
  obtain ⟨s1, he, hf, hx, hpc⟩ :=
    add_reg_semantics 0 0x8124 addDemoState (by decide) (by decide) (by decide)
  refine ⟨s1, he, ?_, ?_, ?_⟩
  · rw [hf]; decide
  · have hx1 : s1.v 1 =
        (addDemoState.v (get_x 0x8124) + addDemoState.v (get_y 0x8124)) % 255 := hx
    rw [hx1]; decide
  · have hpc1 : s1.pc = (addDemoState.pc + 2) % 65536 := hpc
    rw [hpc1]; decide

/-- C7 counterexample: with V1 = 52, executing 0xF129 (LD F, V1) sets
I = 4, not 52 * 5 = 260 — the u8 multiply `state.v[x] * 5` wraps modulo
256 before the widening cast. -/
theorem ld_f_overflow_counterexample :
    (executeStep 0 0xF129 reg52State).map (fun t => t.1.i) = some 4 ∧
    (4 : Nat) ≠ 52 * 5 := by
  constructor
  · rfl
  · decide

/-- C7 amended: Fx29 sets `I = (Vx * 5) mod 256` (exact `Vx * 5` only for
Vx ≤ 51, in particular for every font index 0..=0xF) and advances pc by 2. -/
theorem ld_f_wrap_semantics (r op : Nat) (s : State)
    (h1 : op &&& 0xF000 = 0xF000) (h2 : op &&& 0xF0FF = 0xF029) :
    executeStep r op s =
      some ({ s with i := (s.v (get_x op) * 5) % 256, pc := (s.pc + 2) % 65536 },
        true) := by
  simp [executeStep, decodeStep, h1, h2, stepLDF]

/-- C7 witness: the amended statement at the concrete input V1 = 52
(0xF129 yields I = 4, pc = 0x202). -/
theorem ld_f_wrap_semantics_witness :
    executeStep 0 0xF129 reg52State =
      some ({ reg52State with i := 4, pc := 0x202 }, true) :=
  ld_f_wrap_semantics 0 0xF129 reg52State (by decide) (by decide)

/-- C1 counterexample: executing 9xy0 (SNE V0, V1) on the fresh state,
where the skip condition does not hold (V0 = V1 = 0), leaves pc at 0x200
instead of advancing it by 2 to 0x202 as the claim requires. -/
theorem sne_reg_no_base_advance :
    (executeStep 0 0x9010 State.new).map (fun t => t.1.pc) = some 0x200 ∧
    (0x200 : Nat) ≠ 0x202 := by
  constructor
  · rfl
  · decide

/-- C1 amended: the byte/register SE/SNE forms 3xkk, 4xkk and 5xy0 advance
pc by 2 and by an additional 2 (net +4) exactly when the skip condition
holds; but 9xy0, Ex9E (SKP) and ExA1 (SKNP) have no unconditional advance —
they advance pc by exactly 2 when the skip condition holds and leave pc
unchanged otherwise.  For Ex9E/ExA1 the keypad index Vx must be below 16,
otherwise the access panics. -/
theorem skip_pc_semantics (r op : Nat) (s : State) :
    (op &&& 0xF000 = 0x3000 → executeStep r op s =
      some ({ s with
        pc := (s.pc + if s.v (get_x op) = get_byte op then 4 else 2) % 65536 }, true)) ∧
    (op &&& 0xF000 = 0x4000 → executeStep r op s =
      some ({ s with
        pc := (s.pc + if s.v (get_x op) = get_byte op then 2 else 4) % 65536 }, true)) ∧
    (op &&& 0xF000 = 0x5000 → executeStep r op s =
      some ({ s with
        pc := (s.pc + if s.v (get_x op) = s.v (get_y op) then 4 else 2) % 65536 }, true)) ∧
    (op &&& 0xF000 = 0x9000 → executeStep r op s =
      some ((if s.v (get_x op) = s.v (get_y op) then s
             else { s with pc := (s.pc + 2) % 65536 }), true)) ∧
    (op &&& 0xF000 = 0xE000 → op &&& 0xF0FF = 0xE09E → s.v (get_x op) < 16 →
      executeStep r op s =
        some ((if s.keypad (s.v (get_x op)) then { s with pc := (s.pc + 2) % 65536 }
               else s), true)) ∧
    (op &&& 0xF000 = 0xE000 → op &&& 0xF0FF = 0xE0A1 → s.v (get_x op) < 16 →
      executeStep r op s =
        some ((if s.keypad (s.v (get_x op)) then s
               else { s with pc := (s.pc + 2) % 65536 }), true)) := by
  have e4 : ∀ a : Nat, ((a + 2) % 65536 + 2) % 65536 = (a + 4) % 65536 := by
    intro a; omega
  refine ⟨?_, ?_, ?_, ?_, ?_, ?_⟩
  · intro h
    by_cases hc : s.v (get_x op) = get_byte op <;>
      simp [executeStep, decodeStep, h, stepSEByte, hc, e4]
  · intro h
    by_cases hc : s.v (get_x op) = get_byte op <;>
      simp [executeStep, decodeStep, h, stepSNEByte, hc, e4]
  · intro h
    by_cases hc : s.v (get_x op) = s.v (get_y op) <;>
      simp [executeStep, decodeStep, h, stepSEReg, hc, e4]
  · intro h
    by_cases hc : s.v (get_x op) = s.v (get_y op) <;>
      simp [executeStep, decodeStep, h, stepSNEReg, hc]
  · intro h h2 hvx
    by_cases hk : s.keypad (s.v (get_x op)) <;>
      simp [executeStep, decodeStep, h, h2, stepSKP, hvx, hk]
  · intro h h2 hvx
    by_cases hk : s.keypad (s.v (get_x op)) <;>
      simp [executeStep, decodeStep, h, h2, stepSKNP, hvx, hk]

/-- C1 witness: 3xkk at the fresh state (V1 = 0 ≠ 0xAA, no skip): net +2,
pc = 0x202. -/
theorem skip_pc_semantics_witness :
    executeStep 0 0x31AA State.new =
      some ({ State.new with
        pc := (State.new.pc + if State.new.v (get_x 0x31AA) = get_byte 0x31AA
               then 4 else 2) % 65536 }, true) :=
  (skip_pc_semantics 0 0x31AA State.new).1 (by decide)

/-- C4 counterexample: with keys 0 and 1 both pressed, executing Fx0A
(0xF10A) advances pc from 0x200 to 0x204 — by 2 per pressed key — not by 2
in total as the claim requires. -/
theorem ld_vx_k_double_key_advance :
    (executeStep 0 0xF10A twoKeysState).map (fun t => t.1.pc) = some 0x204 ∧
    (0x204 : Nat) ≠ 0x202 := by
  constructor
  · rfl
  · decide

/-- C4 amended: Fx0A scans the keypad once; with no key pressed it leaves
the whole state (in particular pc and Vx) unchanged; otherwise it stores
the index of the highest pressed key into Vx (the ascending scan's last
write wins) and advances pc by 2 for EACH pressed key. -/
theorem ld_vx_k_semantics (r op : Nat) (s : State)
    (h1 : op &&& 0xF000 = 0xF000) (h2 : op &&& 0xF0FF = 0xF00A) :
    ∃ s1, executeStep r op s = some (s1, true) ∧
      ((List.range 16).filter s.keypad = [] → s1 = s) ∧
      (∀ j, ((List.range 16).filter s.keypad).getLast? = some j →
        s1.v = Function.update s.v (get_x op) j ∧
        s.keypad j = true ∧
        (∀ m, m < 16 → s.keypad m = true → m ≤ j) ∧
        s1.pc = (s.pc + 2 * (List.range 16).countP s.keypad) % 65536) := by
  refine ⟨{ s with
      v := (ldkLoop s.keypad (get_x op) (List.range 16) (s.v, s.pc)).1,
      pc := (ldkLoop s.keypad (get_x op) (List.range 16) (s.v, s.pc)).2 },
    ?_, ?_, ?_⟩
  · simp [executeStep, decodeStep, h1, h2, stepLDK]
  · intro h
    have hres := (ldkLoop_eq s.keypad (get_x op) (List.range 16) s.v s.pc).1 h
    rw [hres]
  · intro j hj
    have hres := (ldkLoop_eq s.keypad (get_x op) (List.range 16) s.v s.pc).2 j hj
    have hsorted : (List.range 16).Pairwise (· ≤ ·) := List.sorted_le_range 16
    obtain ⟨hpj, hmax⟩ := getLast_filter_le_max s.keypad (List.range 16) hsorted j hj
    refine ⟨?_, hpj, ?_, ?_⟩
    · rw [hres]
    · intro m hm hkm
      exact hmax m (List.mem_range.2 hm) hkm
    · rw [hres]

/-- C4 witness: with keys 0 and 1 pressed, Fx0A stores the highest pressed
key (1) into V1 and advances pc by 2 per pressed key to 0x204. -/
theorem ld_vx_k_semantics_witness :
    ∃ s1, executeStep 0 0xF10A twoKeysState = some (s1, true) ∧
      s1.pc = 0x204 ∧ s1.v 1 = 1 := by
  obtain ⟨s1, he, _hempty, hsome⟩ :=
    ld_vx_k_semantics 0 0xF10A twoKeysState (by decide) (by decide)
  obtain ⟨hv, _, _, hpc⟩ := hsome 1 (by decide)
  refine ⟨s1, he, ?_, ?_⟩
  · have hpc1 : s1.pc =
        (twoKeysState.pc + 2 * (List.range 16).countP twoKeysState.keypad) % 65536 := hpc
    rw [hpc1]; decide
  · have hv1 : s1.v = Function.update twoKeysState.v (get_x 0xF10A) 1 := hv
    rw [hv1]; decide
